import Mathlib

/-!
# Verification of the unified log parser (`bot/parsers/unified_log_parser.py`)

Shallow embedding of the incremental, multi-tenant log-tailing engine:
per-(tenant, server) file states, cold-start/hot-start dispatch, line-slice
extraction with a runaway-output safety break, mission name/tier
normalization, guild state cleanup, and destination-channel resolution.

Python strings are modelled as Lean `String`/`List Char`; Python dicts as
insertion-ordered association lists (`List (String × α)`); the regular
expressions of the pattern table are compiled by hand into dedicated search
functions with Python `re.search` semantics (leftmost match, greedy
quantifiers, `re.IGNORECASE`).  Timestamps (`datetime.now`) are threaded in
as an explicit `now : String` argument.  External I/O (the Mongo save, the
Discord send) is recorded as explicit `Effect`s in an emitted trace.
-/

/-! ## Python-faithful string helpers -/

/-- Case-insensitive character comparison (`re.IGNORECASE`). -/
def ciEq (a b : Char) : Bool := a.toLower == b.toLower

/-- Consume the literal `lit` (given lowercase) case-insensitively from the
front of `l`; return the rest on success. -/
def dropLitCI : List Char → List Char → Option (List Char)
  | [], l => some l
  | _ :: _, [] => none
  | p :: ps, c :: cs => if ciEq p c then dropLitCI ps cs else none

/-- Character class `[A-Za-z0-9_]`. -/
def isWordChar (c : Char) : Bool := c.isAlpha || c.isDigit || c == '_'

/-- Character class `[A-Z_]` under `re.IGNORECASE`. -/
def isUpperUnder (c : Char) : Bool := c.isAlpha || c == '_'

/-- Character class `[a-f0-9]` under `re.IGNORECASE`. -/
def isHexCI (c : Char) : Bool := c.isDigit || ('a' ≤ c.toLower && c.toLower ≤ 'f')

/-- Character class `[^&\?]`. -/
def isNameChar (c : Char) : Bool := !(c == '&' || c == '?')

/-- Substring containment, Python's `sub in s` (on char lists). -/
def containsSub (pat : List Char) : List Char → Bool
  | [] => pat.isEmpty
  | c :: cs => pat.isPrefixOf (c :: cs) || containsSub pat cs

/-- Substring containment, Python's `sub in s`. -/
def containsStr (s sub : String) : Bool := containsSub sub.toList s.toList

/-- Python `s.lower()`. -/
def strLower (s : String) : String := (s.toList.map Char.toLower).asString

/-- Python `s.startswith(pre)`. -/
def startswith (s pre : String) : Bool := pre.toList.isPrefixOf s.toList

/-- Python `s.replace(pat, repl)` (all non-overlapping occurrences, left to
right), with an explicit structural fuel so the kernel can evaluate it; any
`fuel ≥ l.length` computes the replacement of the whole list. -/
def replaceSubFuel (pat repl : List Char) : Nat → List Char → List Char
  | 0, l => l
  | _ + 1, [] => []
  | fuel + 1, c :: cs =>
    if !pat.isEmpty && pat.isPrefixOf (c :: cs) then
      repl ++ replaceSubFuel pat repl fuel (cs.drop (pat.length - 1))
    else
      c :: replaceSubFuel pat repl fuel cs

/-- Python `s.replace(pat, repl)`; `pat` is nonempty at every call site, as
in the source. -/
def replaceSub (pat repl l : List Char) : List Char := replaceSubFuel pat repl l.length l

/-- Python `s.split(sep)` for a single-character separator: always returns a
nonempty list ( `"".split('_') == ['']` ). -/
def splitChar (sep : Char) : List Char → List (List Char)
  | [] => [[]]
  | c :: cs =>
    if c == sep then [] :: splitChar sep cs
    else
      match splitChar sep cs with
      | [] => [[c]]
      | h :: t => (c :: h) :: t

/-- Python `str.splitlines()`: splits on `\n`, `\r\n`, `\r`; a trailing line
terminator does not produce a final empty line. -/
def splitlinesAux : List Char → List Char → List (List Char)
  | [], acc => if acc.isEmpty then [] else [acc.reverse]
  | '\r' :: '\n' :: rest, acc => acc.reverse :: splitlinesAux rest []
  | '\n' :: rest, acc => acc.reverse :: splitlinesAux rest []
  | '\r' :: rest, acc => acc.reverse :: splitlinesAux rest []
  | c :: rest, acc => splitlinesAux rest (c :: acc)

/-- Python `content.splitlines()`. -/
def splitlines (content : String) : List String :=
  (splitlinesAux content.toList []).map List.asString

/-- Numeric value of a decimal digit string, Python `int(s)` on the output of
a `\d+` capture group. -/
def digitsVal (l : List Char) : Nat := l.foldl (fun a c => a * 10 + (c.toNat - 48)) 0

/-- Python `' '.join(parts)` (on char lists). -/
def joinWithSpace : List (List Char) → List Char
  | [] => []
  | [p] => p
  | p :: ps => p ++ ' ' :: joinWithSpace ps

/-- Python `str.capitalize()`: first character upper-cased, the rest
lower-cased. -/
def pyCapitalize : List Char → List Char
  | [] => []
  | c :: cs => c.toUpper :: cs.map Char.toLower

/-- Python `str.isalpha()`: nonempty and all alphabetic. -/
def pyIsAlpha (l : List Char) : Bool := !l.isEmpty && l.all Char.isAlpha

/-! ## The pattern table

The source compiles a dict of regexes (`_compile_unified_patterns`).  Each
pattern used by the processing loop is compiled here into a dedicated search
function with `re.search` semantics.  `searchAux` tries a match at every
start position, leftmost first. -/

def searchAux {α : Type} (matchAt : List Char → Option α) : List Char → Option α
  | [] => matchAt []
  | c :: cs =>
    match matchAt (c :: cs) with
    | some r => some r
    | none => searchAux matchAt cs

/-- `'mission_respawn': r'LogSFPS: Mission (GA_[A-Za-z0-9_]+) will respawn in (\d+)'`
(IGNORECASE).  The word-character run is maximal (the following literal
starts with a space, which is not a word character, so greedy matching
cannot backtrack into it); likewise the digit run. -/
def missionRespawnAt (l : List Char) : Option (String × String) :=
  match dropLitCI "logsfps: mission ".toList l with
  | none => none
  | some r1 =>
    match dropLitCI "ga_".toList r1 with
    | none => none
    | some r2 =>
      let run := r2.takeWhile isWordChar
      if run.isEmpty then none else
      match dropLitCI " will respawn in ".toList (r2.dropWhile isWordChar) with
      | none => none
      | some r3 =>
        let ds := r3.takeWhile Char.isDigit
        if ds.isEmpty then none else
        some ((r1.take (3 + run.length)).asString, ds.asString)

def searchMissionRespawn (line : String) : Option (String × String) :=
  searchAux missionRespawnAt line.toList

/-- `'mission_state_change': r'LogSFPS: Mission (GA_[A-Za-z0-9_]+) switched to ([A-Z_]+)'`
(IGNORECASE). -/
def missionStateChangeAt (l : List Char) : Option (String × String) :=
  match dropLitCI "logsfps: mission ".toList l with
  | none => none
  | some r1 =>
    match dropLitCI "ga_".toList r1 with
    | none => none
    | some r2 =>
      let run := r2.takeWhile isWordChar
      if run.isEmpty then none else
      match dropLitCI " switched to ".toList (r2.dropWhile isWordChar) with
      | none => none
      | some r3 =>
        let st := r3.takeWhile isUpperUnder
        if st.isEmpty then none else
        some ((r1.take (3 + run.length)).asString, st.asString)

def searchMissionStateChange (line : String) : Option (String × String) :=
  searchAux missionStateChangeAt line.toList

/-- Shared shape of the four fixed-state mission patterns, e.g.
`r'LogSFPS: Mission (GA_[A-Za-z0-9_]+) switched to READY'` (IGNORECASE). -/
def missionFixedStateAt (state : String) (l : List Char) : Option String :=
  match dropLitCI "logsfps: mission ".toList l with
  | none => none
  | some r1 =>
    match dropLitCI "ga_".toList r1 with
    | none => none
    | some r2 =>
      let run := r2.takeWhile isWordChar
      if run.isEmpty then none else
      match dropLitCI (" switched to " ++ state).toList (r2.dropWhile isWordChar) with
      | none => none
      | some _ => some ((r1.take (3 + run.length)).asString)

def searchMissionReady (line : String) : Option String :=
  searchAux (missionFixedStateAt "ready") line.toList

def searchMissionInitial (line : String) : Option String :=
  searchAux (missionFixedStateAt "initial") line.toList

def searchMissionInProgress (line : String) : Option String :=
  searchAux (missionFixedStateAt "in_progress") line.toList

def searchMissionCompleted (line : String) : Option String :=
  searchAux (missionFixedStateAt "completed") line.toList

/-- Tail of `'player_queue_join'` after the `\?`:
`.*eosid=\|([a-f0-9]+).*Name=([^&\?]+)` — the greedy `.*` prefers the last
viable `Name=` occurrence. -/
def nameTail : List Char → Option String
  | [] => none
  | c :: cs =>
    match nameTail cs with
    | some g => some g
    | none =>
      match dropLitCI "name=".toList (c :: cs) with
      | none => none
      | some r =>
        let run := r.takeWhile isNameChar
        if run.isEmpty then none else some run.asString

/-- Greedy `.*eosid=\|…`: prefer the last `eosid=\|` occurrence whose
remainder matches.  The maximal hex run after `eosid=\|` is forced: `Name=`
starts with `n`, which is not a hex character, so it cannot begin inside the
run. -/
def queueTail : List Char → Option (String × String)
  | [] => none
  | c :: cs =>
    match queueTail cs with
    | some g => some g
    | none =>
      match dropLitCI "eosid=|".toList (c :: cs) with
      | none => none
      | some r =>
        let hex := r.takeWhile isHexCI
        if hex.isEmpty then none else
        match nameTail (r.dropWhile isHexCI) with
        | none => none
        | some nm => some (hex.asString, nm)

/-- `'player_queue_join': r'LogNet: Join request: /Game/Maps/world_\d+/World_\d+\?.*eosid=\|([a-f0-9]+).*Name=([^&\?]+)'`
(IGNORECASE).  Returns `(player_id, player_name)`. -/
def queueJoinAt (l : List Char) : Option (String × String) :=
  match dropLitCI "lognet: join request: /game/maps/world_".toList l with
  | none => none
  | some r1 =>
    let d1 := r1.takeWhile Char.isDigit
    if d1.isEmpty then none else
    match dropLitCI "/world_".toList (r1.dropWhile Char.isDigit) with
    | none => none
    | some r2 =>
      let d2 := r2.takeWhile Char.isDigit
      if d2.isEmpty then none else
      match dropLitCI "?".toList (r2.dropWhile Char.isDigit) with
      | none => none
      | some r3 => queueTail r3

def searchPlayerQueueJoin (line : String) : Option (String × String) :=
  searchAux queueJoinAt line.toList

/-- `'player_registered': r'LogOnline: Warning: Player \|([a-f0-9]+) successfully registered!'`
(IGNORECASE). -/
def playerRegisteredAt (l : List Char) : Option String :=
  match dropLitCI "logonline: warning: player |".toList l with
  | none => none
  | some r1 =>
    let hex := r1.takeWhile isHexCI
    if hex.isEmpty then none else
    match dropLitCI " successfully registered!".toList (r1.dropWhile isHexCI) with
    | none => none
    | some _ => some hex.asString

def searchPlayerRegistered (line : String) : Option String :=
  searchAux playerRegisteredAt line.toList

/-- Greedy `.*UniqueId: EOS:\|([a-f0-9]+)`: prefer the last occurrence with a
nonempty hex run after it. -/
def disconnectTail : List Char → Option String
  | [] => none
  | c :: cs =>
    match disconnectTail cs with
    | some g => some g
    | none =>
      match dropLitCI "uniqueid: eos:|".toList (c :: cs) with
      | none => none
      | some r =>
        let run := r.takeWhile isHexCI
        if run.isEmpty then none else some run.asString

/-- `'player_disconnect': r'UChannel::Close: Sending CloseBunch.*UniqueId: EOS:\|([a-f0-9]+)'`
(IGNORECASE). -/
def playerDisconnectAt (l : List Char) : Option String :=
  match dropLitCI "uchannel::close: sending closebunch".toList l with
  | none => none
  | some r => disconnectTail r

def searchPlayerDisconnect (line : String) : Option String :=
  searchAux playerDisconnectAt line.toList

example :
    searchMissionRespawn "[2024.01.01-12.00.00:000] LogSFPS: Mission GA_Airport_mis_01_SFPSACMission will respawn in 300" =
      some ("GA_Airport_mis_01_SFPSACMission", "300") := by decide

example :
    searchMissionStateChange "LogSFPS: Mission GA_Bunker_01_Mis1 switched to READY" =
      some ("GA_Bunker_01_Mis1", "READY") := by decide

example :
    searchPlayerQueueJoin "LogNet: Join request: /Game/Maps/world_0/World_0?eosid=|ab12&Name=Alice" =
      some ("ab12", "Alice") := by decide

example :
    searchPlayerRegistered "LogOnline: Warning: Player |ab12 successfully registered!" =
      some "ab12" := by decide

example :
    searchPlayerDisconnect "UChannel::Close: Sending CloseBunch. UniqueId: EOS:|ab12" =
      some "ab12" := by decide

example : searchMissionRespawn "" = none := by decide
example : splitlines "a\nb" = ["a", "b"] := by decide
example : splitlines "a\n" = ["a"] := by decide
example : splitlines "a\n\n" = ["a", ""] := by decide
example : splitlines "" = [] := by decide
example : splitChar '_' "a_b".toList = [['a'], ['b']] := by decide
example : splitChar '_' [] = [[]] := by decide
example : replaceSub "GA_".toList [] "GA_Kamensk_Mis_1".toList = "Kamensk_Mis_1".toList := by decide

/-! ## Mission catalog (`_get_complete_mission_mappings`) -/

/-- The static mission-id → display-name catalog, in source order. -/
def mission_mappings : List (String × String) := [
  ("GA_Airport_mis_01_SFPSACMission", "Airport Mission #1"),
  ("GA_Airport_mis_02_SFPSACMission", "Airport Mission #2"),
  ("GA_Airport_mis_03_SFPSACMission", "Airport Mission #3"),
  ("GA_Airport_mis_04_SFPSACMission", "Airport Mission #4"),
  ("GA_Beregovoy_Mis1", "Beregovoy Settlement Mission"),
  ("GA_Settle_05_ChernyLog_Mis1", "Cherny Log Settlement Mission"),
  ("GA_Settle_09_Mis_1", "Settlement Mission #9"),
  ("GA_Military_02_Mis1", "Military Base Mission #2"),
  ("GA_Military_03_Mis_01", "Military Base Mission #3"),
  ("GA_Military_04_Mis1", "Military Base Mission #4"),
  ("GA_Military_04_Mis_2", "Military Base Mission #4B"),
  ("GA_Ind_01_m1", "Industrial Zone Mission #1"),
  ("GA_Ind_02_Mis_1", "Industrial Zone Mission #2"),
  ("GA_PromZone_6_Mis_1", "Industrial Zone Mission #6"),
  ("GA_PromZone_Mis_01", "Industrial Zone Mission A"),
  ("GA_PromZone_Mis_02", "Industrial Zone Mission B"),
  ("GA_KhimMash_Mis_01", "Chemical Plant Mission #1"),
  ("GA_KhimMash_Mis_02", "Chemical Plant Mission #2"),
  ("GA_Kamensk_Ind_3_Mis_1", "Kamensk Industrial Mission"),
  ("GA_Kamensk_Mis_1", "Kamensk City Mission #1"),
  ("GA_Kamensk_Mis_2", "Kamensk City Mission #2"),
  ("GA_Kamensk_Mis_3", "Kamensk City Mission #3"),
  ("GA_Krasnoe_Mis_1", "Krasnoe City Mission"),
  ("GA_Vostok_Mis_1", "Vostok City Mission"),
  ("GA_Bunker_01_Mis1", "Underground Bunker Mission"),
  ("GA_Lighthouse_02_Mis1", "Lighthouse Mission #2"),
  ("GA_Elevator_Mis_1", "Elevator Complex Mission #1"),
  ("GA_Elevator_Mis_2", "Elevator Complex Mission #2"),
  ("GA_Sawmill_01_Mis1", "Sawmill Mission #1"),
  ("GA_Sawmill_02_1_Mis1", "Sawmill Mission #2A"),
  ("GA_Sawmill_03_Mis_01", "Sawmill Mission #3"),
  ("GA_Bochki_Mis_1", "Barrel Storage Mission"),
  ("GA_Dubovoe_0_Mis_1", "Dubovoe Resource Mission")]

/-- Python `mission_id.split('_')[-1]` (used by the keyword fallbacks). -/
def lastSplitPart (s : String) : String := ((splitChar '_' s.toList).getLast!).asString

/-- `normalize_mission_name`: catalog lookup, then ordered keyword-substring
fallbacks, then a title-cased token join, then the final
`Special Mission (<raw id>)` fallback. -/
def normalize_mission_name (mission_id : String) : String :=
  match List.lookup mission_id mission_mappings with
  | some name => name
  | none =>
    if containsStr mission_id "_Airport_" then
      "Airport Mission (" ++ lastSplitPart mission_id ++ ")"
    else if containsStr mission_id "_Military_" then
      "Military Mission (" ++ lastSplitPart mission_id ++ ")"
    else if containsStr mission_id "_Settle_" then
      "Settlement Mission (" ++ lastSplitPart mission_id ++ ")"
    else if containsStr mission_id "_Ind_" || containsStr mission_id "_PromZone_" then
      "Industrial Mission (" ++ lastSplitPart mission_id ++ ")"
    else if containsStr mission_id "_KhimMash_" then
      "Chemical Plant Mission (" ++ lastSplitPart mission_id ++ ")"
    else if containsStr mission_id "_Bunker_" then
      "Bunker Mission (" ++ lastSplitPart mission_id ++ ")"
    else if containsStr mission_id "_Sawmill_" then
      "Sawmill Mission (" ++ lastSplitPart mission_id ++ ")"
    else
      let parts := splitChar '_'
        (replaceSub "_mis".toList [] (replaceSub "_Mis".toList [] (replaceSub "GA_".toList [] mission_id.toList)))
      let readable_parts := (parts.filter pyIsAlpha).map pyCapitalize
      if !readable_parts.isEmpty then
        (joinWithSpace readable_parts).asString ++ " Mission"
      else
        "Special Mission (" ++ mission_id ++ ")"

/-- `get_mission_level`: keyword-priority tier classifier on the lowercased
mission id; first matching group wins. -/
def get_mission_level (mission_id : String) : Nat :=
  if ["military", "bunker", "khimmash"].any (fun kw => containsStr (strLower mission_id) kw) then 5
  else if ["airport", "promzone", "kamensk"].any (fun kw => containsStr (strLower mission_id) kw) then 4
  else if ["ind_", "industrial"].any (fun kw => containsStr (strLower mission_id) kw) then 3
  else if ["sawmill", "lighthouse", "elevator"].any (fun kw => containsStr (strLower mission_id) kw) then 2
  else 1

example : normalize_mission_name "GA_Airport_mis_01_SFPSACMission" = "Airport Mission #1" := by decide
example : normalize_mission_name "GA_Military_99_Foo" = "Military Mission (Foo)" := by decide
example : normalize_mission_name "GA_Frozt_Mis_2" = "Frozt Mission" := by decide
example : normalize_mission_name "GA_01_2" = "Special Mission (GA_01_2)" := by decide
example : get_mission_level "GA_Bunker_01_Mis1" = 5 := by decide
example : get_mission_level "GA_Sawmill_01_Mis1" = 2 := by decide
example : get_mission_level "GA_Bochki_Mis_1" = 1 := by decide

/-! ## Data model -/

/-- One per `{guild_id}_{server_id}` key: `{'line_count': …, 'last_updated': …}`. -/
structure FileState where
  line_count : Nat
  last_updated : String
deriving DecidableEq

/-- `player_sessions` values (`process_player_connection`). -/
structure PlayerSession where
  player_id : String
  player_name : String
  guild_id : String
  joined_at : String
  status : String
  left_at : Option String
deriving DecidableEq

/-- `player_lifecycle` values: `{'name': …, 'queue_joined': …}`. -/
structure LifecycleData where
  name : String
  queue_joined : String
deriving DecidableEq

/-- Modelled from the spec: the embed rendering factory
(`bot/utils/embed_factory.py`, `EmbedFactory.create_mission_embed` /
`create_connection_embed`) is not among the provided sources.  The spec
describes its output as a presentation-ready record determined by the
arguments, with a deterministic title and color per state, so the model
keeps the factory arguments verbatim. -/
structure Embed where
  title : String
  description : String
  mission_id : Option String
  level : Option Nat
  state : Option String
  respawn_time : Option Nat
  player_name : Option String
  player_id : Option String
  color : Nat
  footer : String
deriving DecidableEq

/-- Modelled from the spec: `EmbedFactory.create_mission_embed`. -/
def create_mission_embed (title description mission_id : String) (level : Nat)
    (state : String) (respawn_time : Option Nat) (color : Nat) : Embed :=
  ⟨title, description, some mission_id, some level, some state, respawn_time,
    none, none, color, ""⟩

/-- Modelled from the spec: `EmbedFactory.create_connection_embed`. -/
def create_connection_embed (title description player_name player_id : String)
    (color : Nat) : Embed :=
  ⟨title, description, none, none, none, none, some player_name, some player_id, color, ""⟩

/-- Python `embed.set_footer(text=…)`. -/
def setFooter (e : Embed) (text : String) : Embed := { e with footer := text }

/-- External effects of one processing cycle, in program order: the
in-memory `file_states` write, the `_save_persistent_state()` call, and each
appended event record. -/
inductive Effect where
  | writeFileState (key : String) (fs : FileState)
  | savePersistent
  | emit (e : Embed)
deriving DecidableEq

/-- The seven per-guild-scoped state dictionaries of `UnifiedLogParser`
(insertion-ordered, string-keyed, exactly as in `__init__`).  Values the
parser never constructs itself (`server_status` entries, live connection
handles) are modelled as opaque `String`/`Nat` payloads. -/
structure ParserState where
  last_log_position : List (String × Nat)
  log_file_hashes : List (String × String)
  player_sessions : List (String × PlayerSession)
  server_status : List (String × String)
  sftp_connections : List (String × Nat)
  file_states : List (String × FileState)
  player_lifecycle : List (String × LifecycleData)
deriving DecidableEq

/-- Python dict assignment `d[k] = v`: overwrite in place, or append a new
key at the end (insertion order preserved). -/
def dictInsert {α : Type} (d : List (String × α)) (k : String) (v : α) : List (String × α) :=
  match d with
  | [] => [(k, v)]
  | (k', v') :: rest => if k' == k then (k', v) :: rest else (k', v') :: dictInsert rest k v

/-- The two trackers mutated by line extraction: `player_lifecycle` and
`player_sessions` (the loop reads and writes no other parser state). -/
structure TrackState where
  player_lifecycle : List (String × LifecycleData)
  player_sessions : List (String × PlayerSession)
deriving DecidableEq

/-- Result of a processing call: the parser state, the returned embeds, and
the trace of external effects in program order. -/
structure ParseOut where
  state : ParserState
  embeds : List Embed
  trace : List Effect
deriving DecidableEq

/-! ## Event record construction

Embed titles keep the text of the source; the decorative emoji prefixes of
the titles and the bullet of the footer are omitted from the string
literals. -/

/-- Truthiness of `respawn_time` (`elif respawn_time:`): `None` and `0` are
falsy. -/
def respawnTruthy : Option Nat → Bool
  | none => false
  | some r => r != 0

/-- `process_mission_event`: normalized embed per mission state.  The
source returns `None` only if embed construction raises; the modelled
factory is total, so the result is always `some`. -/
def process_mission_event (_guild_id mission_id state : String)
    (respawn_time : Option Nat) : Option Embed :=
  let normalized_name := normalize_mission_name mission_id
  let mission_level := get_mission_level mission_id
  let footer := "Mission Event - Powered by Discord.gg/EmeraldServers"
  if state == "READY" then
    some (setFooter (create_mission_embed "Mission Available"
      ("**" ++ normalized_name ++ "** is now available for completion")
      mission_id mission_level "READY" none 0x00FF00) footer)
  else if state == "IN_PROGRESS" then
    some (setFooter (create_mission_embed "Mission In Progress"
      ("**" ++ normalized_name ++ "** is currently being completed")
      mission_id mission_level "IN_PROGRESS" none 0xFFAA00) footer)
  else if state == "COMPLETED" then
    some (setFooter (create_mission_embed "Mission Completed"
      ("**" ++ normalized_name ++ "** has been completed successfully")
      mission_id mission_level "COMPLETED" none 0x0099FF) footer)
  else if respawnTruthy respawn_time then
    some (setFooter (create_mission_embed "Mission Respawning"
      ("**" ++ normalized_name ++ "** will respawn in " ++
        Nat.repr ((respawn_time).getD 0) ++ " seconds")
      mission_id mission_level "RESPAWN" respawn_time 0x888888) footer)
  else
    some (setFooter (create_mission_embed "Mission Update"
      ("**" ++ normalized_name ++ "** state: " ++ state)
      mission_id mission_level state none 0x666666) footer)

/-- `process_player_connection`: session bookkeeping plus connection embed.
Only `player_sessions` is touched; `update_voice_channel` is a no-op in the
source. -/
def process_player_connection (track : TrackState) (now guild_id player_id
    player_name event_type : String) : TrackState × Option Embed :=
  let session_key := guild_id ++ "_" ++ player_id
  let footer := "Connection Event - Powered by Discord.gg/EmeraldServers"
  if event_type == "joined" then
    let sessions' := dictInsert track.player_sessions session_key
      ⟨player_id, player_name, guild_id, now, "online", none⟩
    let track' := { track with player_sessions := sessions' }
    (track', some (setFooter (create_connection_embed "Player Connected"
      ("**" ++ player_name ++ "** has joined the server")
      player_name player_id 0x00FF00) footer))
  else if event_type == "disconnected" then
    let track' :=
      match List.lookup session_key track.player_sessions with
      | some sess =>
        let sess' := { sess with status := "offline", left_at := some now }
        let sessions' := dictInsert track.player_sessions session_key sess'
        { track with player_sessions := sessions' }
      | none => track
    (track', some (setFooter (create_connection_embed "Player Disconnected"
      ("**" ++ player_name ++ "** has left the server")
      player_name player_id 0xFF0000) footer))
  else
    (track, none)

/-! ## The extraction loop of `parse_log_content` -/

/-- Running state of the per-line loop: the trackers, the accumulated
embeds, the effect trace, `processed_events`, and the outer `break` flag. -/
structure LoopState where
  track : TrackState
  embeds : List Embed
  trace : List Effect
  processed_events : Nat
  broke : Bool
deriving DecidableEq

/-- `embeds.append(embed); processed_events += 1`, with the emission also
recorded in the effect trace. -/
def appendEmbed (ls : LoopState) (e : Embed) : LoopState :=
  { ls with
      embeds := ls.embeds ++ [e]
      trace := ls.trace ++ [Effect.emit e]
      processed_events := ls.processed_events + 1 }

/-- The mission-prefixed entries of the pattern table, in dict insertion
order — the loop `for pattern_name, pattern in self.patterns.items()`
skips every name that does not start with `mission_`, leaving exactly
these six. -/
inductive MissionPattern where
  | mission_respawn
  | mission_state_change
  | mission_ready
  | mission_initial
  | mission_in_progress
  | mission_completed
deriving DecidableEq

def missionPatternOrder : List MissionPattern :=
  [.mission_respawn, .mission_state_change, .mission_ready,
   .mission_initial, .mission_in_progress, .mission_completed]

/-- One iteration of the mission-pattern loop.  The `Bool` component is the
inner `break` flag (the safety check `processed_events > len(lines) * 2`
runs after a `mission_respawn` or `mission_state_change` match; the four
fixed-state patterns fall into the `else: continue` arm and emit nothing). -/
def missionStep (guild_id : String) (thresh : Nat) (line : String) :
    LoopState × Bool → MissionPattern → LoopState × Bool
  | (ls, mbroke), pname =>
    if mbroke then (ls, mbroke) else
    match pname with
    | .mission_respawn =>
      match searchMissionRespawn line with
      | none => (ls, mbroke)
      | some (mission_id, respawn_time) =>
        let embed := process_mission_event guild_id mission_id "RESPAWN"
          (some (digitsVal respawn_time.toList))
        let ls' :=
          match embed with
          | some e => appendEmbed ls e
          | none => ls
        (ls', ls'.processed_events > thresh)
    | .mission_state_change =>
      match searchMissionStateChange line with
      | none => (ls, mbroke)
      | some (mission_id, state) =>
        let embed := process_mission_event guild_id mission_id state none
        let ls' :=
          match embed with
          | some e => appendEmbed ls e
          | none => ls
        (ls', ls'.processed_events > thresh)
    | _ => (ls, mbroke)

/-- Queue-join block of the line body: capture `(player_id, player_name)`
into `player_lifecycle`; no embed is emitted. -/
def queueJoinStep (guild_id now line : String) (ls : LoopState) : LoopState :=
  match searchPlayerQueueJoin line with
  | none => ls
  | some (player_id, player_name) =>
    let player_key := guild_id ++ "_" ++ player_id
    let lifecycle' := dictInsert ls.track.player_lifecycle player_key ⟨player_name, now⟩
    { ls with track := { ls.track with player_lifecycle := lifecycle' } }

/-- Registration block of the line body: resolve the display name from
`player_lifecycle` (fallback `"Unknown Player"`), then
`process_player_connection(..., 'joined')`. -/
def registeredStep (guild_id now line : String) (ls : LoopState) : LoopState :=
  match searchPlayerRegistered line with
  | none => ls
  | some player_id =>
    let player_key := guild_id ++ "_" ++ player_id
    let player_name :=
      match List.lookup player_key ls.track.player_lifecycle with
      | some lc => lc.name
      | none => "Unknown Player"
    let (track', embed) :=
      process_player_connection ls.track now guild_id player_id player_name "joined"
    match embed with
    | some e => appendEmbed { ls with track := track' } e
    | none => { ls with track := track' }

/-- Disconnect block of the line body: resolve the display name from
`player_sessions`, then `player_lifecycle`, then `"Unknown Player"`; then
`process_player_connection(..., 'disconnected')`. -/
def disconnectStep (guild_id now line : String) (ls : LoopState) : LoopState :=
  match searchPlayerDisconnect line with
  | none => ls
  | some player_id =>
    let player_key := guild_id ++ "_" ++ player_id
    let session_key := guild_id ++ "_" ++ player_id
    let player_name :=
      match List.lookup session_key ls.track.player_sessions with
      | some sess => sess.player_name
      | none =>
        match List.lookup player_key ls.track.player_lifecycle with
        | some lc => lc.name
        | none => "Unknown Player"
    let (track', embed) :=
      process_player_connection ls.track now guild_id player_id player_name "disconnected"
    match embed with
    | some e => appendEmbed { ls with track := track' } e
    | none => { ls with track := track' }

/-- Processing of one line of the active slice (the body of
`for line_idx, line in enumerate(lines)`): mission-pattern loop, queue-join
name capture, registration, disconnect, then the per-line safety check. -/
def lineStep (guild_id now : String) (thresh : Nat) (ls : LoopState)
    (line : String) : LoopState :=
  if ls.broke then ls else
  let ls1 := (missionPatternOrder.foldl (missionStep guild_id thresh line) (ls, false)).1
  let ls2 := queueJoinStep guild_id now line ls1
  let ls3 := registeredStep guild_id now line ls2
  let ls4 := disconnectStep guild_id now line ls3
  if ls4.processed_events > thresh then { ls4 with broke := true } else ls4

/-- Lines 346–443 of the source: write the new `FileState` *before* any
extraction, call `_save_persistent_state()`, then run the loop over the
active slice (`len(lines)` in the safety threshold is the slice length). -/
def processSlice (st : ParserState) (now guild_id server_key : String)
    (total_lines : Nat) (lines : List String) : ParseOut :=
  let fs : FileState := ⟨total_lines, now⟩
  let st1 := { st with file_states := dictInsert st.file_states server_key fs }
  let thresh := lines.length * 2
  let init : LoopState := ⟨⟨st1.player_lifecycle, st1.player_sessions⟩, [], [], 0, false⟩
  let fin := lines.foldl (lineStep guild_id now thresh) init
  let st2 := { st1 with
      player_lifecycle := fin.track.player_lifecycle
      player_sessions := fin.track.player_sessions }
  ⟨st2, fin.embeds,
    Effect.writeFileState server_key fs :: Effect.savePersistent :: fin.trace⟩

/-- `parse_log_content`: incremental (hot-start) slice selection, early
return when there is nothing new, state write before extraction, then the
extraction loop. -/
def parse_log_content (st : ParserState) (now guild_id server_id content : String) :
    ParseOut :=
  let lines := splitlines content
  let total_lines := lines.length
  let server_key := guild_id ++ "_" ++ server_id
  let last_processed :=
    match List.lookup server_key st.file_states with
    | some fs => fs.line_count
    | none => 0
  if 0 < last_processed ∧ last_processed < total_lines then
    processSlice st now guild_id server_key total_lines (lines.drop last_processed)
  else if total_lines ≤ last_processed then
    ⟨st, [], []⟩
  else
    processSlice st now guild_id server_key total_lines lines

/-- A line makes the cold-start loop count one event iff some
mission-prefixed pattern matches it (the inner loop breaks at the first
match). -/
def missionAnyMatch (line : String) : Bool :=
  (searchMissionRespawn line).isSome || (searchMissionStateChange line).isSome ||
  (searchMissionReady line).isSome || (searchMissionInitial line).isSome ||
  (searchMissionInProgress line).isSome || (searchMissionCompleted line).isSome

/-- `_process_cold_start`: pattern-match every line but suppress all embeds;
only a local counter is kept.  Afterwards the `FileState` is written with
`line_count = total_lines` and the persistent save runs. -/
def process_cold_start (st : ParserState) (now guild_id server_id content : String) :
    ParseOut :=
  let lines := splitlines content
  let total_lines := lines.length
  let _events_parsed :=
    lines.foldl (fun acc line => if missionAnyMatch line then acc + 1 else acc) 0
  let server_key := guild_id ++ "_" ++ server_id
  let fs : FileState := ⟨total_lines, now⟩
  let st' := { st with file_states := dictInsert st.file_states server_key fs }
  ⟨st', [], [Effect.writeFileState server_key fs, Effect.savePersistent]⟩

/-- Lines 810–838 of `parse_server_logs`, after the SFTP fetch produced
`content`: empty content is a no-op; otherwise `is_warm_start =
last_processed > 0` dispatches to `_process_cold_start` (suppressed) or
`parse_log_content` (emitting). -/
def parse_server_logs_process (st : ParserState) (now guild_id server_id content : String) :
    ParseOut :=
  if content == "" then ⟨st, [], []⟩ else
  let server_key := guild_id ++ "_" ++ server_id
  let last_processed :=
    match List.lookup server_key st.file_states with
    | some fs => fs.line_count
    | none => 0
  let is_warm_start := 0 < last_processed
  if is_warm_start then parse_log_content st now guild_id server_id content
  else process_cold_start st now guild_id server_id content

/-! ## Cleanup and destination resolution -/

/-- `cleanup_guild_state`: delete every key that starts with
`f"{guild_id}_"` from all seven state dictionaries (the SFTP handles are
also closed; closing is effect-only and the entry removal is what is
modelled). -/
def cleanup_guild_state (st : ParserState) (guild_id : Nat) : ParserState :=
  let guild_pref := Nat.repr guild_id ++ "_"
  { last_log_position := st.last_log_position.filter (fun kv => !startswith kv.1 guild_pref),
    log_file_hashes := st.log_file_hashes.filter (fun kv => !startswith kv.1 guild_pref),
    player_sessions := st.player_sessions.filter (fun kv => !startswith kv.1 guild_pref),
    server_status := st.server_status.filter (fun kv => !startswith kv.1 guild_pref),
    sftp_connections := st.sftp_connections.filter (fun kv => !startswith kv.1 guild_pref),
    file_states := st.file_states.filter (fun kv => !startswith kv.1 guild_pref),
    player_lifecycle := st.player_lifecycle.filter (fun kv => !startswith kv.1 guild_pref) }

/-- Per-tenant configuration document: the per-server channel table
(including the `'default'` pseudo-server) and the legacy flat channel
table.  Channel ids are integers; Python truthiness makes a stored `0`
fall through. -/
structure GuildConfig where
  server_channels : List (String × List (String × Nat))
  channels : List (String × Nat)

/-- Fallback half of `get_server_channel`: tenant-wide `'default'` entry,
then the legacy flat `guild_config['channels']` table (returned without a
truthiness check). -/
def defaultOrLegacyChannel (g : GuildConfig) (channel_type : String) : Option Nat :=
  match List.lookup "default" g.server_channels with
  | some dc =>
    match List.lookup channel_type dc with
    | some channel_id => if channel_id ≠ 0 then some channel_id
        else List.lookup channel_type g.channels
    | none => List.lookup channel_type g.channels
  | none => List.lookup channel_type g.channels

/-- `get_server_channel`: server-specific entry first, then the fallbacks.
`guild_config = none` models a tenant absent from the registry. -/
def get_server_channel (guild_config : Option GuildConfig)
    (server_id channel_type : String) : Option Nat :=
  match guild_config with
  | none => none
  | some g =>
    match List.lookup server_id g.server_channels with
    | some sc =>
      match List.lookup channel_type sc with
      | some channel_id => if channel_id ≠ 0 then some channel_id
          else defaultOrLegacyChannel g channel_type
      | none => defaultOrLegacyChannel g channel_type
    | none => defaultOrLegacyChannel g channel_type

/-! ## Helper lemmas: dictionaries, substrings, prefixes -/

theorem dictInsert_lookup_self {α : Type} (d : List (String × α)) (k : String) (v : α) :
    List.lookup k (dictInsert d k v) = some v := by
  induction d with
  | nil => simp [dictInsert, List.lookup]
  | cons kv rest ih =>
    obtain ⟨k', v'⟩ := kv
    by_cases h : k' == k
    · have hk : k' = k := eq_of_beq h
      subst hk
      simp [dictInsert, h, List.lookup]
    · simp only [dictInsert, h, if_false, Bool.false_eq_true]
      simp only [List.lookup]
      have hk : (k == k') = false := by
        cases hkk : k == k' with
        | true => exact absurd (by rw [eq_of_beq hkk]; exact beq_self_eq_true k') h
        | false => rfl
      rw [hk]
      exact ih

theorem isPrefixOf_eq_true_iff {l₁ l₂ : List Char} :
    l₁.isPrefixOf l₂ = true ↔ l₁ <+: l₂ := by
  induction l₁ generalizing l₂ with
  | nil => simp [List.isPrefixOf]
  | cons c cs ih =>
    cases l₂ with
    | nil => simp [List.isPrefixOf]
    | cons d ds =>
      simp only [List.isPrefixOf, Bool.and_eq_true, ih, List.cons_prefix_cons, beq_iff_eq]

theorem containsSub_append_right (pat l l' : List Char)
    (h : containsSub pat l = true) : containsSub pat (l ++ l') = true := by
  induction l with
  | nil =>
    simp only [containsSub, List.isEmpty_iff] at h
    subst h
    cases l' with
    | nil => simp [containsSub]
    | cons c cs => simp [containsSub, List.isPrefixOf]
  | cons c cs ih =>
    simp only [containsSub, Bool.or_eq_true] at h ⊢
    rcases h with h | h
    · left
      rw [isPrefixOf_eq_true_iff] at h ⊢
      exact h.trans (List.prefix_append _ _)
    · right
      exact ih h

theorem containsSub_append_left (pat l l' : List Char)
    (h : containsSub pat l' = true) : containsSub pat (l ++ l') = true := by
  induction l with
  | nil => simpa using h
  | cons c cs ih =>
    simp only [List.cons_append, containsSub, Bool.or_eq_true]
    right
    exact ih

theorem lookup_all {α β : Type} [BEq α] (p : β → Bool) (l : List (α × β))
    (hall : l.all (fun kv => p kv.2) = true) (k : α) (v : β)
    (hlook : List.lookup k l = some v) : p v = true := by
  induction l with
  | nil => simp [List.lookup] at hlook
  | cons kv rest ih =>
    simp only [List.all_cons, Bool.and_eq_true] at hall
    simp only [List.lookup] at hlook
    cases hk : k == kv.1 with
    | true =>
      rw [show (kv : α × β) = (kv.1, kv.2) from rfl] at hlook
      simp only [hk] at hlook
      cases hlook
      exact hall.1
    | false =>
      rw [show (kv : α × β) = (kv.1, kv.2) from rfl] at hlook
      simp only [hk] at hlook
      exact ih hall.2 hlook

theorem foldl_inv {σ α : Type} (f : σ → α → σ) (P : σ → Prop)
    (hf : ∀ s a, P s → P (f s a)) :
    ∀ (l : List α) (s : σ), P s → P (l.foldl f s) := by
  intro l
  induction l with
  | nil => intro s hs; exact hs
  | cons a as ih => intro s hs; exact ih (f s a) (hf s a hs)

/-! ## Decimal keys: `f"{guild_id}_"` prefixes cannot collide across tenants -/

/-- Most-significant-first decimal digits of a natural number (the
characters of `Nat.repr`). -/
def natDigits (n : Nat) : List Char :=
  if n < 10 then [Nat.digitChar n]
  else natDigits (n / 10) ++ [Nat.digitChar (n % 10)]
termination_by n
decreasing_by exact Nat.div_lt_self (by omega) (by omega)

theorem digitChar_isDigit : ∀ n < 10, (Nat.digitChar n).isDigit = true := by decide

theorem digitChar_val : ∀ n < 10, (Nat.digitChar n).toNat - 48 = n := by decide

theorem natDigits_digits (n : Nat) : ∀ c ∈ natDigits n, c.isDigit = true := by
  induction n using Nat.strong_induction_on with
  | _ n ih =>
    rw [natDigits]
    by_cases h : n < 10
    · simp only [h, if_true]
      intro c hc
      simp only [List.mem_singleton] at hc
      subst hc
      exact digitChar_isDigit n h
    · simp only [h, if_false]
      intro c hc
      rcases List.mem_append.mp hc with hc | hc
      · exact ih (n / 10) (Nat.div_lt_self (by omega) (by omega)) c hc
      · simp only [List.mem_singleton] at hc
        subst hc
        exact digitChar_isDigit (n % 10) (Nat.mod_lt n (by omega))

theorem digitsVal_natDigits (n : Nat) : digitsVal (natDigits n) = n := by
  induction n using Nat.strong_induction_on with
  | _ n ih =>
    rw [natDigits]
    by_cases h : n < 10
    · simp only [h, if_true]
      simp only [digitsVal, List.foldl_cons, List.foldl_nil, Nat.zero_mul, Nat.zero_add]
      exact digitChar_val n h
    · simp only [h, if_false]
      have hfold : digitsVal (natDigits (n / 10) ++ [Nat.digitChar (n % 10)]) =
          digitsVal (natDigits (n / 10)) * 10 + ((Nat.digitChar (n % 10)).toNat - 48) := by
        simp [digitsVal, List.foldl_append]
      rw [hfold, ih (n / 10) (Nat.div_lt_self (by omega) (by omega)),
        digitChar_val (n % 10) (Nat.mod_lt n (by omega))]
      omega

theorem natDigits_inj {a b : Nat} (h : natDigits a = natDigits b) : a = b := by
  have := congrArg digitsVal h
  rwa [digitsVal_natDigits, digitsVal_natDigits] at this

theorem toDigitsCore_eq_natDigits :
    ∀ (fuel n : Nat) (ds : List Char), n < 10 ^ (fuel + 1) →
      Nat.toDigitsCore 10 (fuel + 1) n ds = natDigits n ++ ds := by
  intro fuel
  induction fuel with
  | zero =>
    intro n ds hn
    have h10 : n < 10 := by simpa using hn
    have hdiv : n / 10 = 0 := Nat.div_eq_of_lt h10
    have hmod : n % 10 = n := Nat.mod_eq_of_lt h10
    simp only [Nat.toDigitsCore, hdiv, if_true, hmod]
    rw [natDigits]
    simp [h10]
  | succ fuel ih =>
    intro n ds hn
    by_cases hdiv : n / 10 = 0
    · have h10 : n < 10 := by omega
      have hmod : n % 10 = n := Nat.mod_eq_of_lt h10
      simp only [Nat.toDigitsCore, hdiv, if_true, hmod]
      rw [natDigits]
      simp [h10]
    · have h10 : ¬ n < 10 := by
        intro hlt
        exact hdiv (Nat.div_eq_of_lt hlt)
      have hstep : Nat.toDigitsCore 10 (fuel + 1 + 1) n ds =
          Nat.toDigitsCore 10 (fuel + 1) (n / 10) (Nat.digitChar (n % 10) :: ds) := by
        simp [Nat.toDigitsCore, hdiv]
      have hb : n / 10 < 10 ^ (fuel + 1) := by
        have hpow : 10 ^ (fuel + 1 + 1) = 10 ^ (fuel + 1) * 10 := by ring
        have h1 : n < 10 ^ (fuel + 1) * 10 := hpow ▸ hn
        exact (Nat.div_lt_iff_lt_mul (by omega)).mpr h1
      rw [hstep, ih (n / 10) (Nat.digitChar (n % 10) :: ds) hb]
      have hsplit : natDigits n = natDigits (n / 10) ++ [Nat.digitChar (n % 10)] := by
        rw [natDigits]
        simp [h10]
      rw [hsplit, List.append_assoc]
      rfl

theorem repr_toList (n : Nat) : (Nat.repr n).toList = natDigits n := by
  have hb : n < 10 ^ (n + 1) :=
    lt_of_lt_of_le (Nat.lt_pow_self (by omega) n) (Nat.pow_le_pow_right (by omega) (by omega))
  have hrepr : Nat.repr n = (Nat.toDigitsCore 10 (n + 1) n []).asString := rfl
  rw [hrepr, toDigitsCore_eq_natDigits n n [] hb, List.append_nil]
  rfl

theorem digit_prefix_eq : ∀ (a b rest : List Char),
    (∀ c ∈ a, c.isDigit = true) → (∀ c ∈ b, c.isDigit = true) →
    (a ++ ['_']) <+: (b ++ '_' :: rest) → a = b := by
  intro a
  induction a with
  | nil =>
    intro b rest _ hb h
    cases b with
    | nil => rfl
    | cons d ds =>
      simp only [List.nil_append, List.cons_append, List.cons_prefix_cons] at h
      have hd := hb d (by simp)
      rw [← h.1] at hd
      exact absurd hd (by decide)
  | cons c cs ih =>
    intro b rest ha hb h
    cases b with
    | nil =>
      simp only [List.cons_append, List.nil_append, List.cons_prefix_cons] at h
      have hc := ha c (by simp)
      rw [h.1] at hc
      exact absurd hc (by decide)
    | cons d ds =>
      simp only [List.cons_append, List.cons_prefix_cons] at h
      have htail : cs = ds :=
        ih ds rest (fun x hx => ha x (by simp [hx])) (fun x hx => hb x (by simp [hx])) h.2
      rw [h.1, htail]

theorem startswith_repr_unique (A B : Nat) (key : String)
    (hA : startswith key (Nat.repr A ++ "_") = true)
    (hB : startswith key (Nat.repr B ++ "_") = true) : A = B := by
  have htA : (Nat.repr A ++ "_").toList = natDigits A ++ ['_'] := by
    have h1 : (Nat.repr A ++ "_").toList = (Nat.repr A).toList ++ "_".toList :=
      String.data_append _ _
    rw [h1, repr_toList]
    rfl
  have htB : (Nat.repr B ++ "_").toList = natDigits B ++ ['_'] := by
    have h1 : (Nat.repr B ++ "_").toList = (Nat.repr B).toList ++ "_".toList :=
      String.data_append _ _
    rw [h1, repr_toList]
    rfl
  unfold startswith at hA hB
  rw [htA, isPrefixOf_eq_true_iff] at hA
  rw [htB, isPrefixOf_eq_true_iff] at hB
  rcases List.prefix_or_prefix_of_prefix hA hB with h | h
  · exact natDigits_inj (digit_prefix_eq (natDigits A) (natDigits B) []
      (natDigits_digits A) (natDigits_digits B) h)
  · exact (natDigits_inj (digit_prefix_eq (natDigits B) (natDigits A) []
      (natDigits_digits B) (natDigits_digits A) h)).symm

theorem cleanup_other_tenant_keeps (A B : Nat) (hne : A ≠ B) (key : String)
    (hB : startswith key (Nat.repr B ++ "_") = true) :
    startswith key (Nat.repr A ++ "_") = false := by
  cases h : startswith key (Nat.repr A ++ "_") with
  | false => rfl
  | true => exact absurd (startswith_repr_unique A B key h hB) hne

theorem filter_filter_of_imp {α : Type} (p q : α → Bool)
    (h : ∀ x, p x = true → q x = true) :
    ∀ l : List α, (l.filter q).filter p = l.filter p := by
  intro l
  induction l with
  | nil => rfl
  | cons x xs ih =>
    by_cases hq : q x = true
    · simp only [List.filter_cons, hq, if_true, ih]
    · have hq' : q x = false := by
        cases hqq : q x with
        | true => exact absurd hqq hq
        | false => rfl
      have hp : p x = false := by
        cases hpp : p x with
        | false => rfl
        | true => exact absurd (h x hpp) hq
      simp only [List.filter_cons, hq', hp, Bool.false_eq_true, if_false, ih]

/-! ## Loop invariants: event counting, trace shape, safety bound -/

/-- The loop accumulators stay synchronised: `processed_events` counts the
appended embeds, and the trace is exactly the emissions in order. -/
def countSync (ls : LoopState) : Prop :=
  ls.processed_events = ls.embeds.length ∧ ls.trace = ls.embeds.map Effect.emit

theorem appendEmbed_sync {ls : LoopState} (h : countSync ls) (e : Embed) :
    countSync (appendEmbed ls e) := by
  obtain ⟨h1, h2⟩ := h
  constructor
  · simp [appendEmbed, h1]
  · simp [appendEmbed, h2]

theorem appendEmbed_count (ls : LoopState) (e : Embed) :
    (appendEmbed ls e).processed_events = ls.processed_events + 1 := rfl

theorem appendEmbed_broke (ls : LoopState) (e : Embed) :
    (appendEmbed ls e).broke = ls.broke := rfl

theorem process_mission_event_some (g mid state : String) (rt : Option Nat) :
    ∃ e, process_mission_event g mid state rt = some e := by
  unfold process_mission_event
  split_ifs <;> exact ⟨_, rfl⟩

/-- Invariant of the mission-pattern loop: accumulators synchronised, the
count at most `thresh` while the inner break flag is unset, and at most
`thresh + 1` overall. -/
def MInv (thresh : Nat) (lsb : LoopState × Bool) : Prop :=
  countSync lsb.1 ∧ (lsb.2 = false → lsb.1.processed_events ≤ thresh) ∧
    lsb.1.processed_events ≤ thresh + 1 ∧ lsb.1.broke = false

theorem missionStep_inv (g : String) (thresh : Nat) (line : String)
    (lsb : LoopState × Bool) (p : MissionPattern) (h : MInv thresh lsb) :
    MInv thresh (missionStep g thresh line lsb p) := by
  obtain ⟨ls, mb⟩ := lsb
  obtain ⟨hsync, hfalse, hbound, hbroke⟩ := h
  cases mb with
  | true =>
    simp only [missionStep, if_true]
    exact ⟨hsync, fun hf => Bool.noConfusion hf, hbound, hbroke⟩
  | false =>
    have hle : ls.processed_events ≤ thresh := hfalse rfl
    simp only [missionStep, Bool.false_eq_true, if_false]
    cases p with
    | mission_respawn =>
      cases hs : searchMissionRespawn line with
      | none => exact ⟨hsync, fun _ => hle, hbound, hbroke⟩
      | some g2 =>
        obtain ⟨mid, rt⟩ := g2
        obtain ⟨e, he⟩ := process_mission_event_some g mid "RESPAWN" (some (digitsVal rt.toList))
        simp only [he]
        refine ⟨appendEmbed_sync hsync e, ?_, ?_, ?_⟩
        · intro hdec
          simp only [Prod.snd] at hdec
          have hnot := of_decide_eq_false hdec
          simp only [Prod.fst]
          omega
        · simp only [Prod.fst, appendEmbed_count]
          omega
        · simp only [Prod.fst, appendEmbed_broke]
          exact hbroke
    | mission_state_change =>
      cases hs : searchMissionStateChange line with
      | none => exact ⟨hsync, fun _ => hle, hbound, hbroke⟩
      | some g2 =>
        obtain ⟨mid, state⟩ := g2
        obtain ⟨e, he⟩ := process_mission_event_some g mid state none
        simp only [he]
        refine ⟨appendEmbed_sync hsync e, ?_, ?_, ?_⟩
        · intro hdec
          simp only [Prod.snd] at hdec
          have hnot := of_decide_eq_false hdec
          simp only [Prod.fst]
          omega
        · simp only [Prod.fst, appendEmbed_count]
          omega
        · simp only [Prod.fst, appendEmbed_broke]
          exact hbroke
    | mission_ready => exact ⟨hsync, fun _ => hle, hbound, hbroke⟩
    | mission_initial => exact ⟨hsync, fun _ => hle, hbound, hbroke⟩
    | mission_in_progress => exact ⟨hsync, fun _ => hle, hbound, hbroke⟩
    | mission_completed => exact ⟨hsync, fun _ => hle, hbound, hbroke⟩

theorem ppc_joined_some (track : TrackState) (now g pid pname : String) :
    ∃ t e, process_player_connection track now g pid pname "joined" = (t, some e) :=
  ⟨_, _, rfl⟩

theorem ppc_disconnected_some (track : TrackState) (now g pid pname : String) :
    ∃ t e, process_player_connection track now g pid pname "disconnected" = (t, some e) :=
  ⟨_, _, rfl⟩

theorem queueJoinStep_inv (g now line : String) (ls : LoopState) (h : countSync ls) :
    countSync (queueJoinStep g now line ls) ∧
      (queueJoinStep g now line ls).processed_events = ls.processed_events ∧
      (queueJoinStep g now line ls).broke = ls.broke := by
  cases hq : searchPlayerQueueJoin line with
  | none =>
    simp only [queueJoinStep, hq]
    exact ⟨h, by trivial, by trivial⟩
  | some g2 =>
    obtain ⟨pid, pname⟩ := g2
    simp only [queueJoinStep, hq]
    exact ⟨⟨h.1, h.2⟩, by trivial, by trivial⟩

theorem registeredStep_inv (g now line : String) (ls : LoopState) (h : countSync ls) :
    countSync (registeredStep g now line ls) ∧
      (registeredStep g now line ls).processed_events ≤ ls.processed_events + 1 ∧
      (registeredStep g now line ls).broke = ls.broke := by
  cases hq : searchPlayerRegistered line with
  | none =>
    simp only [registeredStep, hq]
    exact ⟨h, by omega, by trivial⟩
  | some pid =>
    cases hn : List.lookup (g ++ "_" ++ pid) ls.track.player_lifecycle with
    | some lc =>
      obtain ⟨t, e, hpc⟩ := ppc_joined_some ls.track now g pid lc.name
      simp only [registeredStep, hq, hn, hpc]
      exact ⟨appendEmbed_sync ⟨h.1, h.2⟩ e, Nat.le_refl _, by trivial⟩
    | none =>
      obtain ⟨t, e, hpc⟩ := ppc_joined_some ls.track now g pid "Unknown Player"
      simp only [registeredStep, hq, hn, hpc]
      exact ⟨appendEmbed_sync ⟨h.1, h.2⟩ e, Nat.le_refl _, by trivial⟩

theorem disconnectStep_inv (g now line : String) (ls : LoopState) (h : countSync ls) :
    countSync (disconnectStep g now line ls) ∧
      (disconnectStep g now line ls).processed_events ≤ ls.processed_events + 1 ∧
      (disconnectStep g now line ls).broke = ls.broke := by
  cases hq : searchPlayerDisconnect line with
  | none =>
    simp only [disconnectStep, hq]
    exact ⟨h, by omega, by trivial⟩
  | some pid =>
    cases hn : List.lookup (g ++ "_" ++ pid) ls.track.player_sessions with
    | some sess =>
      obtain ⟨t, e, hpc⟩ := ppc_disconnected_some ls.track now g pid sess.player_name
      simp only [disconnectStep, hq, hn, hpc]
      exact ⟨appendEmbed_sync ⟨h.1, h.2⟩ e, Nat.le_refl _, by trivial⟩
    | none =>
      cases hn2 : List.lookup (g ++ "_" ++ pid) ls.track.player_lifecycle with
      | some lc =>
        obtain ⟨t, e, hpc⟩ := ppc_disconnected_some ls.track now g pid lc.name
        simp only [disconnectStep, hq, hn, hn2, hpc]
        exact ⟨appendEmbed_sync ⟨h.1, h.2⟩ e, Nat.le_refl _, by trivial⟩
      | none =>
        obtain ⟨t, e, hpc⟩ := ppc_disconnected_some ls.track now g pid "Unknown Player"
        simp only [disconnectStep, hq, hn, hn2, hpc]
        exact ⟨appendEmbed_sync ⟨h.1, h.2⟩ e, Nat.le_refl _, by trivial⟩

/-- Invariant of the per-line loop: accumulators synchronised, count at most
`thresh` while unbroken, count at most `thresh + 3` always (one mission
record and two connection records may land past the threshold before the
end-of-line check fires). -/
def LInv (thresh : Nat) (ls : LoopState) : Prop :=
  countSync ls ∧ (ls.broke = false → ls.processed_events ≤ thresh) ∧
    ls.processed_events ≤ thresh + 3

theorem lineStep_inv (g now : String) (thresh : Nat) (line : String) (ls : LoopState)
    (h : LInv thresh ls) : LInv thresh (lineStep g now thresh ls line) := by
  obtain ⟨hsync, hfalse, hbound⟩ := h
  cases hb : ls.broke with
  | true =>
    unfold lineStep
    rw [if_pos hb]
    exact ⟨hsync, fun hf => Bool.noConfusion (hb.symm.trans hf), hbound⟩
  | false =>
    have hle : ls.processed_events ≤ thresh := hfalse hb
    have hm : MInv thresh (missionPatternOrder.foldl (missionStep g thresh line) (ls, false)) :=
      foldl_inv (missionStep g thresh line) (MInv thresh)
        (fun s a hs => missionStep_inv g thresh line s a hs) missionPatternOrder (ls, false)
        ⟨hsync, fun _ => hle, Nat.le_succ_of_le hle, hb⟩
    obtain ⟨hm1, _, hm3, _⟩ := hm
    have hq := queueJoinStep_inv g now line _ hm1
    have hr := registeredStep_inv g now line _ hq.1
    have hd := disconnectStep_inv g now line _ hr.1
    have h4 := hd.2.1
    have h3 := hr.2.1
    have h2 := hq.2.1
    simp only [lineStep, hb, Bool.false_eq_true, if_false]
    set L1 := (missionPatternOrder.foldl (missionStep g thresh line) (ls, false)).1 with hL1
    set L2 := queueJoinStep g now line L1 with hL2
    set L3 := registeredStep g now line L2 with hL3
    set L4 := disconnectStep g now line L3 with hL4
    by_cases hfin : L4.processed_events > thresh
    · rw [if_pos hfin]
      refine ⟨⟨hd.1.1, hd.1.2⟩, fun hf => Bool.noConfusion hf, ?_⟩
      show L4.processed_events ≤ thresh + 3
      omega
    · rw [if_neg hfin]
      exact ⟨hd.1, fun _ => by omega, by omega⟩

theorem processSlice_fin (st : ParserState) (now g : String) (lines : List String) :
    LInv (lines.length * 2) (lines.foldl (lineStep g now (lines.length * 2))
      ⟨⟨st.player_lifecycle, st.player_sessions⟩, [], [], 0, false⟩) :=
  foldl_inv _ _ (fun s a hs => lineStep_inv g now (lines.length * 2) a s hs) lines _
    ⟨⟨rfl, rfl⟩, fun _ => Nat.zero_le _, Nat.zero_le _⟩

theorem processSlice_embeds_bound (st : ParserState) (now g key : String) (T : Nat)
    (lines : List String) :
    (processSlice st now g key T lines).embeds.length ≤ lines.length * 2 + 3 := by
  obtain ⟨⟨hc, _⟩, _, hb⟩ := processSlice_fin st now g lines
  have hemb : (processSlice st now g key T lines).embeds =
      (lines.foldl (lineStep g now (lines.length * 2))
        ⟨⟨st.player_lifecycle, st.player_sessions⟩, [], [], 0, false⟩).embeds := rfl
  rw [hemb, ← hc]
  exact hb

theorem processSlice_trace_shape (st : ParserState) (now g key : String) (T : Nat)
    (lines : List String) :
    (processSlice st now g key T lines).trace =
      Effect.writeFileState key ⟨T, now⟩ :: Effect.savePersistent ::
        (processSlice st now g key T lines).embeds.map Effect.emit := by
  obtain ⟨⟨_, ht⟩, _, _⟩ := processSlice_fin st now g lines
  have htr : (processSlice st now g key T lines).trace =
      Effect.writeFileState key ⟨T, now⟩ :: Effect.savePersistent ::
        (lines.foldl (lineStep g now (lines.length * 2))
          ⟨⟨st.player_lifecycle, st.player_sessions⟩, [], [], 0, false⟩).trace := rfl
  rw [htr, ht]
  rfl

theorem parse_log_content_hot (st : ParserState) (now g s content : String) (fs : FileState)
    (hlook : List.lookup (g ++ "_" ++ s) st.file_states = some fs)
    (h0 : 0 < fs.line_count) (hlt : fs.line_count < (splitlines content).length) :
    parse_log_content st now g s content =
      processSlice st now g (g ++ "_" ++ s) (splitlines content).length
        ((splitlines content).drop fs.line_count) := by
  unfold parse_log_content
  simp only [hlook]
  rw [if_pos ⟨h0, hlt⟩]

theorem parse_log_content_noop (st : ParserState) (now g s content : String) (fs : FileState)
    (hlook : List.lookup (g ++ "_" ++ s) st.file_states = some fs)
    (hge : (splitlines content).length ≤ fs.line_count) :
    parse_log_content st now g s content = ⟨st, [], []⟩ := by
  unfold parse_log_content
  simp only [hlook]
  rw [if_neg (by omega), if_pos (by omega)]

theorem process_cold_start_embeds (st : ParserState) (now g s content : String) :
    (process_cold_start st now g s content).embeds = [] := rfl

theorem process_cold_start_state (st : ParserState) (now g s content : String) :
    (process_cold_start st now g s content).state =
      { st with file_states := dictInsert st.file_states (g ++ "_" ++ s) ⟨(splitlines content).length, now⟩ } := rfl

theorem process_cold_start_trace (st : ParserState) (now g s content : String) :
    (process_cold_start st now g s content).trace =
      [Effect.writeFileState (g ++ "_" ++ s) ⟨(splitlines content).length, now⟩, Effect.savePersistent] := rfl

/-! ## Substring facts lifted to `String` -/

theorem strToList_append (a b : String) : (a ++ b).toList = a.toList ++ b.toList :=
  String.data_append a b

theorem containsStr_head (a x y pat : String)
    (h : containsSub pat.toList a.toList = true) :
    containsStr (a ++ x ++ y) pat = true := by
  unfold containsStr
  rw [strToList_append, strToList_append]
  exact containsSub_append_right _ _ _ (containsSub_append_right _ _ _ h)

theorem containsStr_tail (x y pat : String)
    (h : containsSub pat.toList y.toList = true) :
    containsStr (x ++ y) pat = true := by
  unfold containsStr
  rw [strToList_append]
  exact containsSub_append_left _ _ _ h

theorem containsStr_empty_false (s : String) (hs : s = "") :
    containsStr s "Mission" = false := by
  subst hs
  decide

/-! ## Claim theorems -/

/-- Claim C10: for every input string, `normalize_mission_name` terminates
without raising and returns a non-empty string containing the substring
`"Mission"` (via exact catalog hit, keyword fallback, title-cased token
join, or the final `Special Mission` fallback).  Totality is inherent in
the Lean model (the function is a total `def`); the substring and
non-emptiness facts are proved for all inputs. -/
theorem C10_normalize_mission_name_total (mission_id : String) :
    containsStr (normalize_mission_name mission_id) "Mission" = true ∧
      normalize_mission_name mission_id ≠ "" := by
  have hmain : containsStr (normalize_mission_name mission_id) "Mission" = true := by
    unfold normalize_mission_name
    cases hl : List.lookup mission_id mission_mappings with
    | some v =>
      exact lookup_all (fun s => containsStr s "Mission") mission_mappings (by decide)
        mission_id v hl
    | none =>
      split_ifs with h1 h2 h3 h4 h5 h6 h7
      · exact containsStr_head "Airport Mission (" _ _ "Mission" (by decide)
      · exact containsStr_head "Military Mission (" _ _ "Mission" (by decide)
      · exact containsStr_head "Settlement Mission (" _ _ "Mission" (by decide)
      · exact containsStr_head "Industrial Mission (" _ _ "Mission" (by decide)
      · exact containsStr_head "Chemical Plant Mission (" _ _ "Mission" (by decide)
      · exact containsStr_head "Bunker Mission (" _ _ "Mission" (by decide)
      · exact containsStr_head "Sawmill Mission (" _ _ "Mission" (by decide)
      · dsimp only []
        split_ifs with h8
        · exact containsStr_tail _ " Mission" "Mission" (by decide)
        · exact containsStr_head "Special Mission (" _ _ "Mission" (by decide)
  refine ⟨hmain, ?_⟩
  intro he
  rw [containsStr_empty_false _ he] at hmain
  exact Bool.noConfusion hmain

/-- Ruleset transcription of the claim's words for `get_mission_level`: an
ordered keyword-group rule list (military/bunker/chemical, then
airport/industrial-zone/city, then generic-industrial, then
resource/utility), evaluated first-match-wins, default tier 1. -/
def missionLevelRules : List (List String × Nat) :=
  [(["military", "bunker", "khimmash"], 5),
   (["airport", "promzone", "kamensk"], 4),
   (["ind_", "industrial"], 3),
   (["sawmill", "lighthouse", "elevator"], 2)]

/-- First-match-wins evaluation of `missionLevelRules`. -/
def evalLevelRules (mission_id : String) : Nat :=
  match missionLevelRules.find?
      (fun r => r.1.any (fun kw => containsStr (strLower mission_id) kw)) with
  | some r => r.2
  | none => 1

/-- Claim C8: `get_mission_level` returns 5 for every mission id containing
`"bunker"`, 2 for every id containing `"sawmill"` and none of the
higher-priority keywords, 1 for every id containing none of the known
keywords; and the function coincides everywhere with the first-match-wins
evaluation of the priority-ordered keyword ruleset. -/
theorem C8_get_mission_level_tiers :
    (∀ mission_id : String, containsStr (strLower mission_id) "bunker" = true →
      get_mission_level mission_id = 5) ∧
    (∀ mission_id : String, containsStr (strLower mission_id) "sawmill" = true →
      containsStr (strLower mission_id) "military" = false →
      containsStr (strLower mission_id) "bunker" = false →
      containsStr (strLower mission_id) "khimmash" = false →
      containsStr (strLower mission_id) "airport" = false →
      containsStr (strLower mission_id) "promzone" = false →
      containsStr (strLower mission_id) "kamensk" = false →
      containsStr (strLower mission_id) "ind_" = false →
      containsStr (strLower mission_id) "industrial" = false →
      get_mission_level mission_id = 2) ∧
    (∀ mission_id : String,
      (∀ kw ∈ ["military", "bunker", "khimmash", "airport", "promzone", "kamensk",
        "ind_", "industrial", "sawmill", "lighthouse", "elevator"],
        containsStr (strLower mission_id) kw = false) →
      get_mission_level mission_id = 1) ∧
    (∀ mission_id : String, get_mission_level mission_id = evalLevelRules mission_id) := by
  refine ⟨?_, ?_, ?_, ?_⟩
  · intro mission_id h
    unfold get_mission_level
    rw [if_pos (by simp [List.any_cons, h])]
  · intro mission_id hs h1 h2 h3 h4 h5 h6 h7 h8
    unfold get_mission_level
    rw [if_neg (by simp [List.any_cons, h1, h2, h3]),
      if_neg (by simp [List.any_cons, h4, h5, h6]),
      if_neg (by simp [List.any_cons, h7, h8]),
      if_pos (by simp [List.any_cons, hs])]
  · intro mission_id hall
    have k1 := hall "military" (by simp)
    have k2 := hall "bunker" (by simp)
    have k3 := hall "khimmash" (by simp)
    have k4 := hall "airport" (by simp)
    have k5 := hall "promzone" (by simp)
    have k6 := hall "kamensk" (by simp)
    have k7 := hall "ind_" (by simp)
    have k8 := hall "industrial" (by simp)
    have k9 := hall "sawmill" (by simp)
    have k10 := hall "lighthouse" (by simp)
    have k11 := hall "elevator" (by simp)
    unfold get_mission_level
    rw [if_neg (by simp [List.any_cons, k1, k2, k3]),
      if_neg (by simp [List.any_cons, k4, k5, k6]),
      if_neg (by simp [List.any_cons, k7, k8]),
      if_neg (by simp [List.any_cons, k9, k10, k11])]
  · intro mission_id
    unfold get_mission_level evalLevelRules missionLevelRules
    by_cases c1 : (["military", "bunker", "khimmash"].any
        (fun kw => containsStr (strLower mission_id) kw)) = true
    · simp [List.find?, c1]
    · have c1' := eq_false_of_ne_true c1
      by_cases c2 : (["airport", "promzone", "kamensk"].any
          (fun kw => containsStr (strLower mission_id) kw)) = true
      · simp [List.find?, c1', c2]
      · have c2' := eq_false_of_ne_true c2
        by_cases c3 : (["ind_", "industrial"].any
            (fun kw => containsStr (strLower mission_id) kw)) = true
        · simp [List.find?, c1', c2', c3]
        · have c3' := eq_false_of_ne_true c3
          by_cases c4 : (["sawmill", "lighthouse", "elevator"].any
              (fun kw => containsStr (strLower mission_id) kw)) = true
          · simp [List.find?, c1', c2', c3', c4]
          · have c4' := eq_false_of_ne_true c4
            simp [List.find?, c1', c2', c3', c4']

theorem processSlice_embeds_total (st : ParserState) (now g key : String) (T1 T2 : Nat)
    (lines : List String) :
    (processSlice st now g key T1 lines).embeds = (processSlice st now g key T2 lines).embeds := rfl

/-- A line that matches no pattern at all. -/
theorem processSlice_benign (st : ParserState) (now g key : String) (T : Nat) :
    (processSlice st now g key T [""]).embeds = [] := rfl

/-- A representative single-event line: it matches `mission_state_change`
(one emission) and `mission_ready` (the `continue` arm), and no player
pattern. -/
def sampleEventLine : String := "LogSFPS: Mission GA_Sawmill_01_Mis1 switched to READY"

theorem processSlice_single_event (st : ParserState) (now g key : String) (T : Nat) :
    (processSlice st now g key T [sampleEventLine]).embeds.length = 1 := rfl

/-- Claim C2: hot-start delta correctness — with stored `line_count = P` and
`T > P` total lines, (i) the emitted events depend only on the slice of
lines `[P, T)` (two contents with equal slices yield equal events), (ii) an
arbitrary line sitting at index `P-1` produces no emitted record, and
(iii) a matchable event line at index `P` produces exactly one emitted
record. -/
theorem C2_hot_start_delta :
    (∀ (st : ParserState) (now g s c₁ c₂ : String) (fs : FileState),
      List.lookup (g ++ "_" ++ s) st.file_states = some fs →
      0 < fs.line_count →
      fs.line_count < (splitlines c₁).length →
      fs.line_count < (splitlines c₂).length →
      (splitlines c₁).drop fs.line_count = (splitlines c₂).drop fs.line_count →
      (parse_log_content st now g s c₁).embeds = (parse_log_content st now g s c₂).embeds) ∧
    (∀ (st : ParserState) (now g s content ev t : String) (pre : List String),
      splitlines content = pre ++ [ev, ""] →
      List.lookup (g ++ "_" ++ s) st.file_states = some ⟨pre.length + 1, t⟩ →
      (parse_log_content st now g s content).embeds = []) ∧
    (∀ (st : ParserState) (now g s content t : String) (pre : List String),
      0 < pre.length →
      splitlines content = pre ++ [sampleEventLine] →
      List.lookup (g ++ "_" ++ s) st.file_states = some ⟨pre.length, t⟩ →
      (parse_log_content st now g s content).embeds.length = 1) := by
  refine ⟨?_, ?_, ?_⟩
  · intro st now g s c₁ c₂ fs hlook h0 h1 h2 hdrop
    rw [parse_log_content_hot st now g s c₁ fs hlook h0 h1,
      parse_log_content_hot st now g s c₂ fs hlook h0 h2, hdrop]
    exact processSlice_embeds_total st now g (g ++ "_" ++ s)
      (splitlines c₁).length (splitlines c₂).length _
  · intro st now g s content ev t pre hsplit hlook
    have hlt : (pre.length + 1 : Nat) < (splitlines content).length := by
      rw [hsplit]
      simp
    rw [parse_log_content_hot st now g s content ⟨pre.length + 1, t⟩ hlook
      (Nat.succ_pos pre.length) hlt]
    have hdrop : (splitlines content).drop (pre.length + 1) = [""] := by
      rw [hsplit]
      have h1 := @List.drop_append String pre [ev, ""] 1
      rw [h1]
      rfl
    rw [hdrop]
    exact processSlice_benign st now g (g ++ "_" ++ s) (splitlines content).length
  · intro st now g s content t pre hpos hsplit hlook
    have hlt : (pre.length : Nat) < (splitlines content).length := by
      rw [hsplit]
      simp
    rw [parse_log_content_hot st now g s content ⟨pre.length, t⟩ hlook hpos hlt]
    have hdrop : (splitlines content).drop pre.length = [sampleEventLine] := by
      rw [hsplit]
      exact @List.drop_append String pre [sampleEventLine] 0
    rw [hdrop]
    exact processSlice_single_event st now g (g ++ "_" ++ s) (splitlines content).length

/-- Claim C3: for a stored `FileState` with positive `line_count`, content
with at most that many lines is a complete no-op: the call returns no
events, performs no state write and no persistent save, and leaves the
whole parser state — in particular the stored `line_count` and
`last_updated` — unchanged. -/
theorem C3_noop_on_unchanged_or_shrunk (st : ParserState)
    (now guild_id server_id content : String) (fs : FileState)
    (hlook : List.lookup (guild_id ++ "_" ++ server_id) st.file_states = some fs)
    (h0 : 0 < fs.line_count)
    (hle : (splitlines content).length ≤ fs.line_count) :
    parse_log_content st now guild_id server_id content = ⟨st, [], []⟩ :=
  parse_log_content_noop st now guild_id server_id content fs hlook hle

/-- Claim C4: in hot-start processing the new `FileState` write and the
persistent save are the first two effects of the cycle, strictly before
every emission: the effect trace is exactly the state write, then the save,
then the emitted records in order. -/
theorem C4_state_write_before_extraction (st : ParserState)
    (now guild_id server_id content : String) (fs : FileState)
    (hlook : List.lookup (guild_id ++ "_" ++ server_id) st.file_states = some fs)
    (h0 : 0 < fs.line_count) (hlt : fs.line_count < (splitlines content).length) :
    (parse_log_content st now guild_id server_id content).trace =
      Effect.writeFileState (guild_id ++ "_" ++ server_id)
          ⟨(splitlines content).length, now⟩ ::
        Effect.savePersistent ::
        (parse_log_content st now guild_id server_id content).embeds.map Effect.emit := by
  rw [parse_log_content_hot st now guild_id server_id content fs hlook h0 hlt]
  exact processSlice_trace_shape st now guild_id (guild_id ++ "_" ++ server_id)
    (splitlines content).length ((splitlines content).drop fs.line_count)

/-- Claim C5 (amended): the safety check runs after each mission-pattern
emission and at the end of each line, so once the count exceeds
`2 × (slice length)` no further *line* is processed, but the current line
may still emit its remaining records; hence at most `2 × L + 3` records are
returned in total, and they are returned normally (the model is a total
function). -/
theorem C5_safety_break_bound (st : ParserState)
    (now guild_id server_id content : String) (fs : FileState)
    (hlook : List.lookup (guild_id ++ "_" ++ server_id) st.file_states = some fs)
    (h0 : 0 < fs.line_count) (hlt : fs.line_count < (splitlines content).length) :
    (parse_log_content st now guild_id server_id content).embeds.length ≤
      ((splitlines content).length - fs.line_count) * 2 + 3 := by
  rw [parse_log_content_hot st now guild_id server_id content fs hlook h0 hlt]
  have h := processSlice_embeds_bound st now guild_id (guild_id ++ "_" ++ server_id)
    (splitlines content).length ((splitlines content).drop fs.line_count)
  rwa [List.length_drop] at h

/-- A single log line that matches `mission_respawn`, `mission_state_change`,
`player_registered` and `player_disconnect` at once. -/
def runawayLine : String :=
  "LogSFPS: Mission GA_X will respawn in 10 LogSFPS: Mission GA_Y switched to READY LogOnline: Warning: Player |ab successfully registered! UChannel::Close: Sending CloseBunch UniqueId: EOS:|ab"

/-- Stored state for the hot-start counterexamples: one prior line recorded
for tenant `1`, server `s`. -/
def stW : ParserState := ⟨[], [], [], [], [], [("1_s", ⟨1, "t0"⟩)], []⟩

/-- Claim C5, counterexample to the claim as stated: a hot-start slice of
`L = 1` line emits 4 records — two past the `2 × L` threshold (and one past
`2 × L + 1`), because the per-line safety check only stops *subsequent*
lines, while the current line's player-connection blocks still run. -/
theorem C5_counterexample :
    (parse_log_content stW "t1" "1" "s" ("x\n" ++ runawayLine)).embeds.length = 4 ∧
    ((splitlines ("x\n" ++ runawayLine)).length - 1) * 2 + 1 < 4 := by
  constructor
  · decide
  · decide

/-- A queue-join line carrying the display name `Alice` for player `ab12`. -/
def joinLine : String :=
  "LogNet: Join request: /Game/Maps/world_0/World_0?eosid=|ab12&Name=Alice"

/-- The matching registration-confirmed line for player `ab12`. -/
def regLine : String := "LogOnline: Warning: Player |ab12 successfully registered!"

/-- Two-line content with K = 2 matchable player-lifecycle events. -/
def lifecycleContent : String := joinLine ++ "\n" ++ regLine

/-- The parser state with no entries at all. -/
def emptyState : ParserState := ⟨[], [], [], [], [], [], []⟩

/-- Claim C1, counterexample to the claim as stated: cold start of content
with two matchable player-lifecycle events leaves the player lifecycle
cache and the session map completely untouched, whereas hot-start
processing of the same two lines populates both — so cold start does *not*
update the internal tracking state "exactly as if the K events had been
processed in hot start". -/
theorem C1_counterexample :
    (process_cold_start emptyState "t1" "1" "s" lifecycleContent).state.player_lifecycle = [] ∧
    (process_cold_start emptyState "t1" "1" "s" lifecycleContent).state.player_sessions = [] ∧
    (parse_log_content stW "t1" "1" "s" ("x\n" ++ lifecycleContent)).state.player_lifecycle
      ≠ [] ∧
    (parse_log_content stW "t1" "1" "s" ("x\n" ++ lifecycleContent)).state.player_sessions
      ≠ [] := by
  refine ⟨?_, ?_, ?_, ?_⟩ <;> decide

/-- Claim C1 (amended): cold-start processing of content with N lines
records a `FileState` with `line_count = N` and emits zero downstream event
records, but it does *not* update the lifecycle/session tracking state:
the player lifecycle cache and the player session map are left exactly as
they were (the cold-start loop only counts mission-pattern matches into a
local variable). -/
theorem C1_cold_start_suppression (st : ParserState)
    (now guild_id server_id content : String) :
    List.lookup (guild_id ++ "_" ++ server_id)
        (process_cold_start st now guild_id server_id content).state.file_states =
      some ⟨(splitlines content).length, now⟩ ∧
    (process_cold_start st now guild_id server_id content).embeds = [] ∧
    (process_cold_start st now guild_id server_id content).state.player_lifecycle =
      st.player_lifecycle ∧
    (process_cold_start st now guild_id server_id content).state.player_sessions =
      st.player_sessions := by
  refine ⟨?_, rfl, rfl, rfl⟩
  rw [process_cold_start_state]
  exact dictInsert_lookup_self st.file_states (guild_id ++ "_" ++ server_id)
    ⟨(splitlines content).length, now⟩

/-- Claim C9: the cold-versus-hot dispatch tests only `line_count > 0`, not
whether a `FileState` entry exists; a recorded `FileState` with
`line_count = 0` sends the next non-empty fetch through
`_process_cold_start` again (all events suppressed). -/
theorem C9_zero_line_count_redispatches_cold (st : ParserState)
    (now guild_id server_id content t : String)
    (hlook : List.lookup (guild_id ++ "_" ++ server_id) st.file_states = some ⟨0, t⟩)
    (hne : content ≠ "") :
    parse_server_logs_process st now guild_id server_id content =
      process_cold_start st now guild_id server_id content ∧
    (parse_server_logs_process st now guild_id server_id content).embeds = [] := by
  have hbe : (content == "") = false := by
    cases hc : content == "" with
    | false => rfl
    | true => exact absurd (eq_of_beq hc) hne
  have heq : parse_server_logs_process st now guild_id server_id content =
      process_cold_start st now guild_id server_id content := by
    unfold parse_server_logs_process
    rw [if_neg (by simp [hbe])]
    simp only [hlook]
    rw [if_neg (by omega)]
  exact ⟨heq, by rw [heq]; rfl⟩

/-- Claim C6: `cleanup_guild_state A` leaves every entry of every other
tenant B untouched, in all seven state dictionaries; in particular the
`startswith`-based key matching can never capture another tenant's keys,
because two distinct decimal tenant ids followed by `_` are never prefixes
of one another (`12_` versus `123_`). -/
theorem C6_cleanup_guild_state_isolation (A B : Nat) (hne : A ≠ B) (st : ParserState) :
    ((cleanup_guild_state st A).file_states.filter
        (fun kv => startswith kv.1 (Nat.repr B ++ "_")) =
      st.file_states.filter (fun kv => startswith kv.1 (Nat.repr B ++ "_"))) ∧
    ((cleanup_guild_state st A).player_sessions.filter
        (fun kv => startswith kv.1 (Nat.repr B ++ "_")) =
      st.player_sessions.filter (fun kv => startswith kv.1 (Nat.repr B ++ "_"))) ∧
    ((cleanup_guild_state st A).server_status.filter
        (fun kv => startswith kv.1 (Nat.repr B ++ "_")) =
      st.server_status.filter (fun kv => startswith kv.1 (Nat.repr B ++ "_"))) ∧
    ((cleanup_guild_state st A).player_lifecycle.filter
        (fun kv => startswith kv.1 (Nat.repr B ++ "_")) =
      st.player_lifecycle.filter (fun kv => startswith kv.1 (Nat.repr B ++ "_"))) ∧
    ((cleanup_guild_state st A).last_log_position.filter
        (fun kv => startswith kv.1 (Nat.repr B ++ "_")) =
      st.last_log_position.filter (fun kv => startswith kv.1 (Nat.repr B ++ "_"))) ∧
    ((cleanup_guild_state st A).log_file_hashes.filter
        (fun kv => startswith kv.1 (Nat.repr B ++ "_")) =
      st.log_file_hashes.filter (fun kv => startswith kv.1 (Nat.repr B ++ "_"))) ∧
    ((cleanup_guild_state st A).sftp_connections.filter
        (fun kv => startswith kv.1 (Nat.repr B ++ "_")) =
      st.sftp_connections.filter (fun kv => startswith kv.1 (Nat.repr B ++ "_"))) := by
  have himp : ∀ (key : String), startswith key (Nat.repr B ++ "_") = true →
      (!startswith key (Nat.repr A ++ "_")) = true := by
    intro key h
    rw [cleanup_other_tenant_keeps A B hne key h]
    rfl
  refine ⟨?_, ?_, ?_, ?_, ?_, ?_, ?_⟩ <;>
    exact filter_filter_of_imp _ _ (fun kv h => himp kv.1 h) _

/-- Claim C7: destination resolution precedence, first match wins — the
server-specific channel-type entry (when present and truthy), otherwise the
tenant-wide `'default'` entry (when present and truthy), otherwise the
legacy flat entry; in particular, with both a server-specific and a
tenant-default entry configured, the server-specific one is returned. -/
theorem C7_get_server_channel_precedence :
    (∀ (g : GuildConfig) (server_id channel_type : String)
      (sc : List (String × Nat)) (c : Nat),
      List.lookup server_id g.server_channels = some sc →
      List.lookup channel_type sc = some c → c ≠ 0 →
      get_server_channel (some g) server_id channel_type = some c) ∧
    (∀ (g : GuildConfig) (server_id channel_type : String)
      (dc : List (String × Nat)) (d : Nat),
      List.lookup server_id g.server_channels = none →
      List.lookup "default" g.server_channels = some dc →
      List.lookup channel_type dc = some d → d ≠ 0 →
      get_server_channel (some g) server_id channel_type = some d) ∧
    (∀ (g : GuildConfig) (server_id channel_type : String)
      (sc dc : List (String × Nat)) (d : Nat),
      List.lookup server_id g.server_channels = some sc →
      List.lookup channel_type sc = none →
      List.lookup "default" g.server_channels = some dc →
      List.lookup channel_type dc = some d → d ≠ 0 →
      get_server_channel (some g) server_id channel_type = some d) ∧
    (∀ (g : GuildConfig) (server_id channel_type : String),
      List.lookup server_id g.server_channels = none →
      List.lookup "default" g.server_channels = none →
      get_server_channel (some g) server_id channel_type =
        List.lookup channel_type g.channels) := by
  refine ⟨?_, ?_, ?_, ?_⟩
  · intro g server_id channel_type sc c hs hc hc0
    unfold get_server_channel
    simp only [hs, hc]
    rw [if_pos hc0]
  · intro g server_id channel_type dc d hs hd hdc hd0
    unfold get_server_channel defaultOrLegacyChannel
    simp only [hs, hd, hdc]
    rw [if_pos hd0]
  · intro g server_id channel_type sc dc d hs hsc hd hdc hd0
    unfold get_server_channel defaultOrLegacyChannel
    simp only [hs, hsc, hd, hdc]
    rw [if_pos hd0]
  · intro g server_id channel_type hs hd
    unfold get_server_channel defaultOrLegacyChannel
    simp only [hs, hd]

/-! ## Witnesses -/

theorem C2_witness :
    (parse_log_content stW "t1" "1" "s" ("x\n" ++ sampleEventLine)).embeds.length = 1 :=
  C2_hot_start_delta.2.2 stW "t1" "1" "s" ("x\n" ++ sampleEventLine) "t0" ["x"]
    (by decide) (by decide) (by decide)

theorem C3_witness :
    parse_log_content stW "t1" "1" "s" "a" = ⟨stW, [], []⟩ :=
  C3_noop_on_unchanged_or_shrunk stW "t1" "1" "s" "a" ⟨1, "t0"⟩
    (by decide) (by decide) (by decide)

theorem C4_witness :
    (parse_log_content stW "t1" "1" "s" ("x\n" ++ sampleEventLine)).trace =
      Effect.writeFileState "1_s" ⟨2, "t1"⟩ :: Effect.savePersistent ::
        (parse_log_content stW "t1" "1" "s" ("x\n" ++ sampleEventLine)).embeds.map
          Effect.emit :=
  C4_state_write_before_extraction stW "t1" "1" "s" ("x\n" ++ sampleEventLine) ⟨1, "t0"⟩
    (by decide) (by decide) (by decide)

theorem C5_witness :
    (parse_log_content stW "t1" "1" "s" ("x\n" ++ runawayLine)).embeds.length ≤
      ((splitlines ("x\n" ++ runawayLine)).length - 1) * 2 + 3 :=
  C5_safety_break_bound stW "t1" "1" "s" ("x\n" ++ runawayLine) ⟨1, "t0"⟩
    (by decide) (by decide) (by decide)

/-- Tenant 123 owns one entry in each state dictionary of this state. -/
def stC : ParserState :=
  ⟨[("123_srv", 7)], [("123_srv", "hash")],
   [("123_ab12", ⟨"ab12", "Alice", "123", "t", "online", none⟩)],
   [("123_srv", "ok")], [("123_srv_host_22", 1)], [("123_srv", ⟨3, "t"⟩)],
   [("123_ab12", ⟨"Alice", "q"⟩)]⟩

theorem C6_witness :
    (cleanup_guild_state stC 12).file_states.filter
        (fun kv => startswith kv.1 (Nat.repr 123 ++ "_")) =
      stC.file_states.filter (fun kv => startswith kv.1 (Nat.repr 123 ++ "_")) :=
  (C6_cleanup_guild_state_isolation 12 123 (by decide) stC).1

/-- A tenant configuration with a server-specific, a tenant-default, and a
legacy `events` channel. -/
def cfgW : GuildConfig :=
  ⟨[("srv", [("events", 111)]), ("default", [("events", 222)])], [("events", 333)]⟩

theorem C7_witness : get_server_channel (some cfgW) "srv" "events" = some 111 :=
  C7_get_server_channel_precedence.1 cfgW "srv" "events" [("events", 111)] 111
    (by decide) (by decide) (by decide)

theorem C8_witness :
    get_mission_level "GA_Bunker_01_Mis1" = 5 ∧
      get_mission_level "GA_Sawmill_01_Mis1" = 2 ∧
      get_mission_level "GA_Bochki_Mis_1" = 1 :=
  ⟨C8_get_mission_level_tiers.1 "GA_Bunker_01_Mis1" (by decide),
   C8_get_mission_level_tiers.2.1 "GA_Sawmill_01_Mis1" (by decide) (by decide) (by decide)
     (by decide) (by decide) (by decide) (by decide) (by decide) (by decide),
   C8_get_mission_level_tiers.2.2.1 "GA_Bochki_Mis_1" (by decide)⟩

/-- A recorded `FileState` with `line_count = 0` for tenant 1, server `s`. -/
def stZ : ParserState := ⟨[], [], [], [], [], [("1_s", ⟨0, "t0"⟩)], []⟩

theorem C9_witness :
    parse_server_logs_process stZ "t1" "1" "s" "a" =
      process_cold_start stZ "t1" "1" "s" "a" ∧
    (parse_server_logs_process stZ "t1" "1" "s" "a").embeds = [] :=
  C9_zero_line_count_redispatches_cold stZ "t1" "1" "s" "a" "t0" (by decide) (by decide)
